import Mathlib

/-!
# cdekcalc: a client for the CDEK tariff calculator

A shallow embedding of the Go package `cdekcalc` (`cdekcalc.go`, `oauthToken.go`).

* A Go `string` that reaches the JSON encoder (the two addresses, the request body) is
  `Bytes`, a sequence of bytes that need not be UTF-8; the other strings are `String`.
  Go `int` is `Int` (a value of the 64-bit range), Go `bool` is `Bool`.
* A Go slice is a `Slice`: the `nil` slice is kept apart from an empty non-nil slice.
* A Go `error` is a `GoError`; `nil` is `none` in an `Option GoError`.
* The network and the JSON decoder are outside the package. They are the fields of a
  `World`; every call handed to the transport is recorded in the `calls` field of the result.
-/

namespace Cdekcalc

/-! ## Go values -/

/-- Go `error` values: `errors.New msg` (or any error made by a library), and
`fmt.Errorf` with one `%w` verb, which keeps the wrapped cause. -/
inductive GoError where
  | new (msg : String)
  | wrap (msg : String) (cause : GoError)
deriving DecidableEq, Repr

/-- The method `Error()` of a Go error: its message. -/
def GoError.Error : GoError → String
  | .new msg => msg
  | .wrap msg _ => msg

/-- The call `fmt.Errorf(pre + "%w", err)`. -/
def Errorf (pre : String) (err : GoError) : GoError :=
  .wrap (pre ++ err.Error) err

/-- A Go slice, capacity left out: `nil`, or a non-nil slice with its elements. -/
inductive Slice (α : Type) where
  | nil
  | mk (elems : List α)
deriving DecidableEq, Repr

/-- The elements of a slice, in order. -/
def Slice.toList {α : Type} : Slice α → List α
  | .nil => []
  | .mk elems => elems

/-- Go `len(s)`. -/
def Slice.len {α : Type} (s : Slice α) : Nat := s.toList.length

/-- Go `append(s, xs...)`: a nil slice stays nil only when nothing is appended. -/
def Slice.append {α : Type} (s : Slice α) (xs : Slice α) : Slice α :=
  match s with
  | .nil => if xs.toList.isEmpty then .nil else .mk xs.toList
  | .mk elems => .mk (elems ++ xs.toList)

/-- Go `float64`, kept as the 64 bits of the value. -/
structure Float64 where
  bits : Nat
deriving DecidableEq, Repr

/-- A Go `byte`. -/
abbrev Byte := Fin 256

/-- A Go `string`: a sequence of bytes, UTF-8 or not. -/
abbrev Bytes := List Byte

/-- The UTF-8 bytes of a code point. -/
def encodeRune (n : Nat) : Bytes :=
  if n < 0x80 then [Fin.ofNat n]
  else if n < 0x800 then [Fin.ofNat (0xC0 + n / 64), Fin.ofNat (0x80 + n % 64)]
  else if n < 0x10000 then
    [Fin.ofNat (0xE0 + n / 4096), Fin.ofNat (0x80 + n / 64 % 64), Fin.ofNat (0x80 + n % 64)]
  else
    [Fin.ofNat (0xF0 + n / 262144), Fin.ofNat (0x80 + n / 4096 % 64),
      Fin.ofNat (0x80 + n / 64 % 64), Fin.ofNat (0x80 + n % 64)]

/-- The bytes of a text: a string constant of the source as Go holds it. -/
def utf8 (s : String) : Bytes := (s.toList.map (fun c => encodeRune c.toNat)).flatten

/-! ## `url.Values` and `http.Header` -/

/-- Go `map[string][]string` (`url.Values`, `http.Header`) as an association list
holding each key at most once. -/
structure Values where
  entries : List (String × List String)
deriving DecidableEq, Repr

/-- The empty map `url.Values{}`. -/
def Values.empty : Values := ⟨[]⟩

/-- The method `Set`: the key is bound to the one value, replacing what it had. -/
def Values.Set (v : Values) (key value : String) : Values :=
  ⟨(key, [value]) :: v.entries.filter (fun e => e.1 ≠ key)⟩

/-- The map lookup `v[key]`, `none` when the key is absent. -/
def Values.lookup (v : Values) (key : String) : Option (List String) :=
  (v.entries.find? (fun e => e.1 = key)).map (fun e => e.2)

/-! ## Data types of `cdekcalc.go` -/

def EndpointURLProduction : String := "https://api.cdek.ru/v2/calculator/tarifflist"
def EndpointURLTesting : String := "https://api.edu.cdek.ru/v2/calculator/tarifflist"

structure Client where
  Token : String
  EnpointURL : String
deriving DecidableEq, Repr

structure Size where
  Weight : Int
  Length : Int
  Width : Int
  Height : Int
deriving DecidableEq, Repr

structure PriceSending where
  TariffCode : Int
  TariffName : String
  TariffDescription : String
  DeliveryMode : Int
  DeliverySum : Float64
  PeriodMin : Int
  PeriodMax : Int
  CalendarMin : Int
  CalendarMax : Int
deriving DecidableEq, Repr

structure Error where
  Code : String
  Message : String
deriving DecidableEq, Repr

/-- The anonymous struct type of `FromLocation` and `ToLocation`. -/
structure Location where
  Address : Bytes
deriving DecidableEq, Repr

structure reqCalculator where
  FromLocation : Location
  ToLocation : Location
  Packages : Slice Size
deriving DecidableEq, Repr

/-- The anonymous element type of `respCalculator.Requests`. -/
structure RequestErrors where
  Errors : Slice Error
deriving DecidableEq, Repr

structure respCalculator where
  TariffCodes : Slice PriceSending
  Errors : Slice Error
  Requests : Slice RequestErrors
deriving DecidableEq, Repr

/-! ## Data types of `oauthToken.go` -/

def AuthEndpointURLProduction : String := "https://api.cdek.ru/v2/oauth/token"
def AuthEndpointURLTesting : String := "https://api.edu.cdek.ru/v2/oauth/token"

structure respOAuthToken where
  AccessToken : String
  ExpiresIn : Int
  Error : String
  ErrorDescription : String
deriving DecidableEq, Repr

/-! ## `encoding/json` and `unicode/utf8`: the encoder, on the request type

The encoder of the standard library (`escapeHTML` on, as `json.NewEncoder` sets it),
for the types of `reqCalculator`: `appendString` with the rune decoder it calls, and
the struct encoder that follows the field tags. -/

/-- The constant `hex` of `encoding/json`, indexed. -/
def hex (n : Nat) : Byte := (utf8 "0123456789abcdef").getD n 0

/-- The table `first` of `unicode/utf8`: what the first byte of a sequence announces. -/
def first (b : Byte) : Nat :=
  if b.val < 0x80 then 0xF0
  else if b.val < 0xC2 then 0xF1
  else if b.val < 0xE0 then 0x02
  else if b.val = 0xE0 then 0x13
  else if b.val < 0xED then 0x03
  else if b.val = 0xED then 0x23
  else if b.val < 0xF0 then 0x03
  else if b.val = 0xF0 then 0x34
  else if b.val < 0xF4 then 0x04
  else if b.val = 0xF4 then 0x44
  else 0xF1

/-- The table `acceptRanges` of `unicode/utf8`: the range allowed to the second byte. -/
def acceptRanges (i : Nat) : Nat × Nat :=
  match i with
  | 0 => (0x80, 0xBF)
  | 1 => (0xA0, 0xBF)
  | 2 => (0x80, 0x9F)
  | 3 => (0x90, 0xBF)
  | 4 => (0x80, 0x8F)
  | _ => (0, 0)

/-- The constant `utf8.RuneError`. -/
def RuneError : Nat := 0xFFFD

/-- The function `utf8.DecodeRuneInString`: the rune at the head and its width; an
ill-formed head gives `(RuneError, 1)`. Masks and shifts are written with `%` and `*`. -/
def DecodeRuneInString (s : Bytes) : Nat × Nat :=
  match s with
  | [] => (RuneError, 0)
  | s0 :: t0 =>
    let x := first s0
    if x ≥ 0xF0 then
      (if x = 0xF0 then s0.val else RuneError, 1)
    else
      let sz := x % 8
      let accept := acceptRanges (x / 16)
      if s.length < sz then (RuneError, 1)
      else
        match t0 with
        | [] => (RuneError, 1)
        | s1 :: t1 =>
          if s1.val < accept.1 ∨ accept.2 < s1.val then (RuneError, 1)
          else if sz ≤ 2 then (s0.val % 32 * 64 + s1.val % 64, 2)
          else
            match t1 with
            | [] => (RuneError, 1)
            | s2 :: t2 =>
              if s2.val < 0x80 ∨ 0xBF < s2.val then (RuneError, 1)
              else if sz ≤ 3 then (s0.val % 16 * 4096 + s1.val % 64 * 64 + s2.val % 64, 3)
              else
                match t2 with
                | [] => (RuneError, 1)
                | s3 :: _ =>
                  if s3.val < 0x80 ∨ 0xBF < s3.val then (RuneError, 1)
                  else (s0.val % 8 * 262144 + s1.val % 64 * 4096 + s2.val % 64 * 64
                    + s3.val % 64, 4)

/-- The table `htmlSafeSet` of `encoding/json`: the ASCII bytes written as they are. -/
def htmlSafeSet (b : Byte) : Bool :=
  decide (0x20 ≤ b.val ∧ b.val < 0x80 ∧ b.val ≠ 0x22 ∧ b.val ≠ 0x5c
    ∧ b.val ≠ 0x3c ∧ b.val ≠ 0x3e ∧ b.val ≠ 0x26)

/-- The `switch b` of `appendString`: the escape of an ASCII byte outside `htmlSafeSet`. -/
def appendEscape (b : Byte) : Bytes :=
  if b.val = 0x5c ∨ b.val = 0x22 then [0x5c, b]
  else if b.val = 0x08 then utf8 "\\b"
  else if b.val = 0x0c then utf8 "\\f"
  else if b.val = 0x0a then utf8 "\\n"
  else if b.val = 0x0d then utf8 "\\r"
  else if b.val = 0x09 then utf8 "\\t"
  else utf8 "\\u00" ++ [hex (b.val / 16), hex (b.val % 16)]

/-- The loop of `appendString`, byte by byte. `pending` counts the bytes still to pass of
a rune already decoded; they are copied when `keep` is set (a rune written as it is) and
dropped otherwise (a rune replaced by its escape). -/
def appendStringLoop : Nat → Bool → Bytes → Bytes
  | _, _, [] => []
  | pending + 1, keep, b :: rest =>
    (if keep then [b] else []) ++ appendStringLoop pending keep rest
  | 0, _, b :: rest =>
    if b.val < 0x80 then
      if htmlSafeSet b then b :: appendStringLoop 0 true rest
      else appendEscape b ++ appendStringLoop 0 true rest
    else
      let d := DecodeRuneInString ((b :: rest).take 4)
      if d.1 = RuneError ∧ d.2 = 1 then utf8 "\\ufffd" ++ appendStringLoop 0 true rest
      else if d.1 = 0x2028 ∨ d.1 = 0x2029 then
        utf8 "\\u202" ++ [hex (d.1 % 16)] ++ appendStringLoop (d.2 - 1) false rest
      else b :: appendStringLoop (d.2 - 1) true rest

/-- The function `appendString` of `encoding/json` with `escapeHTML` set, on an empty
destination: the JSON string literal of a Go string. -/
def appendString (src : Bytes) : Bytes :=
  utf8 "\"" ++ appendStringLoop 0 true src ++ utf8 "\""


/-- A Go `int` as a JSON number (`strconv.AppendInt` in base 10): its decimal digits,
with a minus sign when negative. -/
def encodeInt (i : Int) : Bytes := utf8 (toString i)

/-- A struct with the single field `Address`, tagged `address`. -/
def encodeLocation (l : Location) : Bytes :=
  utf8 "\x7b\"address\":" ++ appendString l.Address ++ utf8 "\x7d"

/-- An `int` field tagged `omitempty`: left out when zero. It never comes first in
`Size`, so it brings its comma. -/
def encodeOmitEmpty (name : String) (i : Int) : Bytes :=
  if i = 0 then [] else utf8 ",\"" ++ utf8 name ++ utf8 "\":" ++ encodeInt i

/-- A `Size`: `weight` is always written, the other three only when non-zero. -/
def encodeSize (s : Size) : Bytes :=
  utf8 "\x7b\"weight\":" ++ encodeInt s.Weight
    ++ encodeOmitEmpty "length" s.Length
    ++ encodeOmitEmpty "width" s.Width
    ++ encodeOmitEmpty "height" s.Height ++ utf8 "\x7d"

/-- The elements of an array, a comma between two of them. -/
def encodeElements : List Size → Bytes
  | [] => []
  | [s] => encodeSize s
  | s :: rest => encodeSize s ++ utf8 "," ++ encodeElements rest

/-- A `[]Size`: `null` for the nil slice, else the elements between brackets. -/
def encodePackages : Slice Size → Bytes
  | .nil => utf8 "null"
  | .mk elems => utf8 "[" ++ encodeElements elems ++ utf8 "]"

/-- A `reqCalculator`, fields in the order of their declaration. -/
def encodeReqCalculator (r : reqCalculator) : Bytes :=
  utf8 "\x7b\"from_location\":" ++ encodeLocation r.FromLocation
    ++ utf8 ",\"to_location\":" ++ encodeLocation r.ToLocation
    ++ utf8 ",\"packages\":" ++ encodePackages r.Packages ++ utf8 "\x7d"

/-- The call `json.NewEncoder(buf).Encode(reqData)` on an empty buffer: the JSON
encoding followed by a newline character. On this type it has no error to return. -/
def Encode (r : reqCalculator) : Except GoError Bytes :=
  .ok (encodeReqCalculator r ++ utf8 "\n")

/-! ## The JSON string literal, as documented

`json.Marshal` documents the encoding of a string: invalid UTF-8 is replaced by U+FFFD,
and the quote, the backslash, the control characters, `<`, `>`, `&`, U+2028 and U+2029
are escaped. -/

/-- The escapes of ASCII characters, by code. -/
def asciiEscapes : List (Nat × String) :=
  [(0x22, "\\\""), (0x5c, "\\\\"),
   (0x08, "\\b"), (0x0c, "\\f"), (0x0a, "\\n"), (0x0d, "\\r"), (0x09, "\\t"),
   (0x3c, "\\u003c"), (0x3e, "\\u003e"), (0x26, "\\u0026"),
   (0x00, "\\u0000"), (0x01, "\\u0001"), (0x02, "\\u0002"), (0x03, "\\u0003"), (0x04, "\\u0004"), (0x05, "\\u0005"), (0x06, "\\u0006"), (0x07, "\\u0007"), (0x0b, "\\u000b"), (0x0e, "\\u000e"), (0x0f, "\\u000f"), (0x10, "\\u0010"), (0x11, "\\u0011"), (0x12, "\\u0012"), (0x13, "\\u0013"), (0x14, "\\u0014"), (0x15, "\\u0015"), (0x16, "\\u0016"), (0x17, "\\u0017"), (0x18, "\\u0018"), (0x19, "\\u0019"), (0x1a, "\\u001a"), (0x1b, "\\u001b"), (0x1c, "\\u001c"), (0x1d, "\\u001d"), (0x1e, "\\u001e"), (0x1f, "\\u001f")]

/-- The bytes `s` begin with one byte in each of the ranges, in order. -/
def startsWithin : Bytes → List (Nat × Nat) → Bool
  | _, [] => true
  | [], _ :: _ => false
  | b :: t, r :: rs => decide (r.1 ≤ b.val ∧ b.val ≤ r.2) && startsWithin t rs

/-- The length of a sequence whose first byte is given and whose next bytes must lie
in `ranges`: 0 when they do not. -/
def sequenceLength (t : Bytes) (ranges : List (Nat × Nat)) : Nat :=
  if startsWithin t ranges then 1 + ranges.length else 0

/-- The length of the well-formed UTF-8 sequence at the head of `s` (table 3-7 of the
Unicode standard: the first byte, then the ranges of the bytes that follow), 0 when
there is none. -/
def wellFormedLength : Bytes → Nat
  | [] => 0
  | b :: t =>
    if b.val ≤ 0x7F then 1
    else if 0xC2 ≤ b.val ∧ b.val ≤ 0xDF then sequenceLength t [(0x80, 0xBF)]
    else if b.val = 0xE0 then sequenceLength t [(0xA0, 0xBF), (0x80, 0xBF)]
    else if 0xE1 ≤ b.val ∧ b.val ≤ 0xEC then sequenceLength t [(0x80, 0xBF), (0x80, 0xBF)]
    else if b.val = 0xED then sequenceLength t [(0x80, 0x9F), (0x80, 0xBF)]
    else if 0xEE ≤ b.val ∧ b.val ≤ 0xEF then sequenceLength t [(0x80, 0xBF), (0x80, 0xBF)]
    else if b.val = 0xF0 then
      sequenceLength t [(0x90, 0xBF), (0x80, 0xBF), (0x80, 0xBF)]
    else if 0xF1 ≤ b.val ∧ b.val ≤ 0xF3 then
      sequenceLength t [(0x80, 0xBF), (0x80, 0xBF), (0x80, 0xBF)]
    else if b.val = 0xF4 then
      sequenceLength t [(0x80, 0x8F), (0x80, 0xBF), (0x80, 0xBF)]
    else 0

/-- One character, given by its UTF-8 bytes, inside a JSON string literal. -/
def jsonChar (r : Bytes) : Bytes :=
  match r with
  | [b] =>
    match asciiEscapes.lookup b.val with
    | some e => utf8 e
    | none => [b]
  | _ =>
    if r = utf8 "\u2028" then utf8 "\\u2028"
    else if r = utf8 "\u2029" then utf8 "\\u2029"
    else r

/-- The characters of a JSON string literal for the bytes `s`; `fuel` bounds the number
of characters and `s.length` is enough. -/
def jsonChars : Nat → Bytes → Bytes
  | 0, _ => []
  | _ + 1, [] => []
  | fuel + 1, b :: rest =>
    match wellFormedLength (b :: rest) with
    | 0 => utf8 "\\ufffd" ++ jsonChars fuel rest
    | n + 1 => jsonChar ((b :: rest).take (n + 1)) ++ jsonChars fuel (rest.drop n)

/-- The JSON string literal that stands for the Go string `s`. -/
def jsonStringLiteral (s : Bytes) : Bytes :=
  utf8 "\"" ++ jsonChars s.length s ++ utf8 "\""

/-- The request body as the spec words it: the JSON object with the keys
`from_location`, `to_location` and `packages` in that order, each address as the JSON
string literal that stands for it, and one package with its four dimensions in decimal. -/
def specRequestText (origin destination : Bytes) (size : Size) : Bytes :=
  utf8 "\x7b\"from_location\":\x7b\"address\":" ++ jsonStringLiteral origin
    ++ utf8 "\x7d,\"to_location\":\x7b\"address\":" ++ jsonStringLiteral destination
    ++ utf8 "\x7d,\"packages\":[\x7b\"weight\":" ++ utf8 (toString size.Weight)
    ++ utf8 ",\"length\":" ++ utf8 (toString size.Length)
    ++ utf8 ",\"width\":" ++ utf8 (toString size.Width)
    ++ utf8 ",\"height\":" ++ utf8 (toString size.Height)
    ++ utf8 "\x7d]\x7d"

/-- How the decoder of `appendString` and the table of well-formed sequences agree on a
head byte outside ASCII. -/
def Classified (b : Byte) (t : Bytes) : Prop :=
  (wellFormedLength (b :: t) = 0
    ∧ DecodeRuneInString ((b :: t).take 4) = (RuneError, 1))
  ∨ (2 ≤ wellFormedLength (b :: t)
    ∧ wellFormedLength (b :: t) ≤ (b :: t).length
    ∧ (DecodeRuneInString ((b :: t).take 4)).2 = wellFormedLength (b :: t)
    ∧ ((DecodeRuneInString ((b :: t).take 4)).1 = 0x2028 ↔
        ((b :: t).take (wellFormedLength (b :: t))).map Fin.val = [0xE2, 0x80, 0xA8])
    ∧ ((DecodeRuneInString ((b :: t).take 4)).1 = 0x2029 ↔
        ((b :: t).take (wellFormedLength (b :: t))).map Fin.val = [0xE2, 0x80, 0xA9]))

/-! ## The outside world -/

/-- An `http.Request` as `Calculate` builds it. -/
structure Request where
  Method : String
  URL : String
  Header : Values
  Body : Bytes
deriving DecidableEq, Repr

/-- A call handed to the HTTP transport. -/
inductive Call where
  | PostForm (url : String) (data : Values)
  | Do (req : Request)
deriving DecidableEq, Repr

/-- The members of a token response that the decoder assigns: a member that is
absent (or `null`) is `none` and leaves its field as it was. -/
structure TokenFields where
  access_token : Option String
  expires_in : Option Int
  error : Option String
  error_description : Option String
deriving DecidableEq, Repr

/-- The members of a calculator response that the decoder assigns: a member that is
absent (or `null`) is `none`, a JSON array is `some` of its elements. -/
structure CalculatorFields where
  tariff_codes : Option (List PriceSending)
  errors : Option (List Error)
  requests : Option (List RequestErrors)
deriving DecidableEq, Repr

/-- `json.NewDecoder(body).Decode(respData)` on `respData := new(respOAuthToken)`:
the fields start at their zero value and the members present are assigned. -/
def TokenFields.decodeInto (f : TokenFields) : respOAuthToken :=
  { AccessToken := f.access_token.getD ""
    ExpiresIn := f.expires_in.getD 0
    Error := f.error.getD ""
    ErrorDescription := f.error_description.getD "" }

/-- A slice field after decoding: nil when the member is absent, else a non-nil
slice (empty for `[]`). -/
def sliceOf {α : Type} : Option (List α) → Slice α
  | none => .nil
  | some elems => .mk elems

/-- `json.NewDecoder(body).Decode(respData)` on `respData := new(respCalculator)`. -/
def CalculatorFields.decodeInto (f : CalculatorFields) : respCalculator :=
  { TariffCodes := sliceOf f.tariff_codes
    Errors := sliceOf f.errors
    Requests := sliceOf f.requests }

/-- What lies outside the package: the HTTP transport and the reading of a response
body by the JSON decoder. A response is known by its body. -/
structure World where
  /-- `http.PostForm(url, data)`: an error, or the response. -/
  PostForm : String → Values → Except GoError String
  /-- The error of `http.NewRequest(method, url, body)`, `none` when the request is built. -/
  NewRequest : String → String → Option GoError
  /-- `http.DefaultClient.Do(req)`: an error, or the response. -/
  Do : Request → Except GoError String
  /-- The JSON decoder reading a token response: an error, or the members it assigns. -/
  DecodeToken : String → Except GoError TokenFields
  /-- The JSON decoder reading a calculator response. -/
  DecodeCalculator : String → Except GoError CalculatorFields

/-! ## `cdekcalc.go` -/

def NewClient (token : String) (testMode : Bool) (customEndpointURL : String) : Client :=
  let api : Client := { Token := "", EnpointURL := "" }
  let api := { api with Token := token }
  if customEndpointURL ≠ "" then
    { api with EnpointURL := customEndpointURL }
  else
    if testMode then
      { api with EnpointURL := EndpointURLTesting }
    else
      { api with EnpointURL := EndpointURLProduction }

/-- The three values `Calculate` returns, and the calls it made. -/
structure CalculateResult where
  prices : Slice PriceSending
  errors : Slice Error
  err : Option GoError
  calls : List Call
deriving DecidableEq, Repr

/-- The loop `for _, r := range respData.Requests { e = append(e, r.Errors...) }`. -/
def appendRequestErrors (e : Slice Error) (requests : List RequestErrors) : Slice Error :=
  requests.foldl (fun e r => e.append r.Errors) e

/-- The value `reqData` that `Calculate` builds. -/
def newReqCalculator (addrFrom addrTo : Bytes) (size : Size) : reqCalculator :=
  { FromLocation := { Address := addrFrom }
    ToLocation := { Address := addrTo }
    Packages := .mk [size] }

/-- The request of `Calculate`: `http.NewRequest(http.MethodPost, client.EnpointURL, buf)`
with the two headers set. Both header names are in canonical form already, so
`Header.Set` stores them as written. -/
def newCalculateRequest (client : Client) (buf : Bytes) : Request :=
  let header := Values.empty
  let header := header.Set "Authorization" ("Bearer " ++ client.Token)
  let header := header.Set "Content-Type" "application/json"
  { Method := "POST", URL := client.EnpointURL, Header := header, Body := buf }

def Calculate (w : World) (client : Client) (addrFrom addrTo : Bytes) (size : Size) :
    CalculateResult :=
  let reqData := newReqCalculator addrFrom addrTo size
  match Encode reqData with
  | .error err => ⟨.nil, .nil, some (Errorf "Calculate: " err), []⟩
  | .ok buf =>
    match w.NewRequest "POST" client.EnpointURL with
    | some err => ⟨.nil, .nil, some (Errorf "Calculate: " err), []⟩
    | none =>
      let req := newCalculateRequest client buf
      match w.Do req with
      | .error err => ⟨.nil, .nil, some (Errorf "Calculate: " err), [.Do req]⟩
      | .ok resp =>
        match w.DecodeCalculator resp with
        | .error err => ⟨.nil, .nil, some (Errorf "Calculate: " err), [.Do req]⟩
        | .ok fields =>
          let respData := fields.decodeInto
          if respData.Errors.len ≠ 0 then
            ⟨.nil, respData.Errors, none, [.Do req]⟩
          else if respData.Requests.len ≠ 0 then
            let e := appendRequestErrors (.mk []) respData.Requests.toList
            ⟨.nil, e, none, [.Do req]⟩
          else
            ⟨respData.TariffCodes, .nil, none, [.Do req]⟩

/-- The exchange of `Calculate` went through and the decoder assigned `fields`:
the body was serialized, the request built, the transport answered and the answer was
decoded without error. -/
def Calculate.decoded (w : World) (client : Client) (addrFrom addrTo : Bytes) (size : Size)
    (fields : CalculatorFields) : Prop :=
  ∃ buf resp, Encode (newReqCalculator addrFrom addrTo size) = .ok buf
    ∧ w.NewRequest "POST" client.EnpointURL = none
    ∧ w.Do (newCalculateRequest client buf) = .ok resp
    ∧ w.DecodeCalculator resp = .ok fields

/-! ## `oauthToken.go` -/

/-- The three values `GetToken` returns, and the calls it made. -/
structure GetTokenResult where
  token : String
  expiresIn : Int
  err : Option GoError
  calls : List Call
deriving DecidableEq, Repr

/-- The choice of `endpointURL` at the head of `GetToken`. -/
def authEndpointURL (testMode : Bool) (customAuthEndpointURL : String) : String :=
  if customAuthEndpointURL ≠ "" then customAuthEndpointURL
  else
    if testMode then AuthEndpointURLTesting
    else AuthEndpointURLProduction

/-- The form `params` of `GetToken`. -/
def authParams (account securePassword : String) : Values :=
  let params := Values.empty
  let params := params.Set "grant_type" "client_credentials"
  let params := params.Set "client_id" account
  params.Set "client_secret" securePassword

def GetToken (w : World) (account securePassword : String) (testMode : Bool)
    (customAuthEndpointURL : String) : GetTokenResult :=
  let endpointURL := authEndpointURL testMode customAuthEndpointURL
  let params := authParams account securePassword
  let calls := [Call.PostForm endpointURL params]
  match w.PostForm endpointURL params with
  | .error err => ⟨"", 0, some (Errorf "GetAccessToken: " err), calls⟩
  | .ok resp =>
    match w.DecodeToken resp with
    | .error err => ⟨"", 0, some (Errorf "GetAccessToken: " err), calls⟩
    | .ok fields =>
      let respData := fields.decodeInto
      if respData.Error ≠ "" then
        ⟨"", 0, some (.wrap ("GetAccessToken: API error '" ++ respData.Error ++ "' ("
          ++ respData.ErrorDescription ++ ")") (.new respData.Error)), calls⟩
      else
        ⟨respData.AccessToken, respData.ExpiresIn, none, calls⟩

/-- The exchange of `GetToken` went through and the decoder assigned `fields`. -/
def GetToken.decoded (w : World) (account securePassword : String) (testMode : Bool)
    (customAuthEndpointURL : String) (fields : TokenFields) : Prop :=
  ∃ resp, w.PostForm (authEndpointURL testMode customAuthEndpointURL)
      (authParams account securePassword) = .ok resp
    ∧ w.DecodeToken resp = .ok fields

/-- The text `sub` occurs in the text `s`. -/
def occursIn (sub s : String) : Prop := sub.toList <:+: s.toList

/-- The text `s` begins with the text `pre`. -/
def beginsWith (s pre : String) : Prop := pre.toList <+: s.toList

/-- A world for examples: every call succeeds and the decoders return the given members. -/
def World.answering (tok : TokenFields) (cal : CalculatorFields) : World :=
  { PostForm := fun _ _ => .ok ""
    NewRequest := fun _ _ => none
    Do := fun _ => .ok ""
    DecodeToken := fun _ => .ok tok
    DecodeCalculator := fun _ => .ok cal }

/-- A world for examples: the transport refuses every connection (the text of the cause
is shortened). -/
def World.refusing : World :=
  { PostForm := fun _ _ => .error (.new "connection refused")
    NewRequest := fun _ _ => none
    Do := fun _ => .error (.new "connection refused")
    DecodeToken := fun _ => .error (.new "EOF")
    DecodeCalculator := fun _ => .error (.new "EOF") }


instance (sub s : String) : Decidable (occursIn sub s) := by
  unfold occursIn
  infer_instance

instance (s pre : String) : Decidable (beginsWith s pre) := by
  unfold beginsWith
  infer_instance

/-! ## Example values -/

/-- A client on the test server. -/
def exampleClient : Client := NewClient "token" true ""

/-- The package of the sample program: 100 g, 10 x 10 x 10 cm. -/
def exampleSize : Size := { Weight := 100, Length := 10, Width := 10, Height := 10 }

/-- A tariff quote. -/
def exampleQuote : PriceSending :=
  { TariffCode := 136, TariffName := "parcel", TariffDescription := "warehouse to warehouse"
    DeliveryMode := 4, DeliverySum := ⟨0x4082c00000000000⟩, PeriodMin := 2, PeriodMax := 3
    CalendarMin := 0, CalendarMax := 0 }

/-- A calculator response with both `errors` and `tariff_codes`. -/
def responseWithErrors : CalculatorFields :=
  { tariff_codes := some [exampleQuote]
    errors := some [⟨"v2_bad_address", "bad address"⟩, ⟨"v2_bad_weight", "bad weight"⟩]
    requests := none }

/-- A calculator response with request groups, one of them without errors, and
`tariff_codes`. -/
def responseWithRequests : CalculatorFields :=
  { tariff_codes := some [exampleQuote]
    errors := some []
    requests := some [⟨.mk [⟨"v2_token_expired", "expired"⟩]⟩, ⟨.nil⟩,
      ⟨.mk [⟨"v2_a", "a"⟩, ⟨"v2_b", "b"⟩]⟩] }

/-- A calculator response with tariffs only. -/
def responseWithTariffs : CalculatorFields :=
  { tariff_codes := some [exampleQuote, { exampleQuote with TariffCode := 137 }]
    errors := none
    requests := none }

/-- A token response reporting an error next to an access token. -/
def tokenResponseWithError : TokenFields :=
  { access_token := some "partial", expires_in := some 3599
    error := some "invalid_client", error_description := some "bad secret" }

/-- A token response without `expires_in`. -/
def tokenResponseWithoutExpiry : TokenFields :=
  { access_token := some "jwt", expires_in := none, error := none, error_description := none }

/-- The members `World.answering` needs for the endpoint that is not called. -/
def noTokenFields : TokenFields :=
  { access_token := none, expires_in := none, error := none, error_description := none }

/-- The members `World.answering` needs for the endpoint that is not called. -/
def noCalculatorFields : CalculatorFields :=
  { tariff_codes := none, errors := none, requests := none }

/-! ## Lemmas -/

set_option maxRecDepth 100000 in
theorem appendEscape_eq_jsonChar :
    ∀ b : Byte, b.val < 0x80 →
      (if htmlSafeSet b then [b] else appendEscape b) = jsonChar [b] := by
  decide

theorem utf8_lineSeparator : utf8 "\u2028" = [0xE2, 0x80, 0xA8] := by decide

theorem utf8_paragraphSeparator : utf8 "\u2029" = [0xE2, 0x80, 0xA9] := by decide

theorem lead_cases (b : Byte) (t : Bytes) (hb : ¬ b.val < 0x80) :
    (first b = 0xF1 ∧ wellFormedLength (b :: t) = 0)
    ∨ (first b = 0x02 ∧ 0xC2 ≤ b.val ∧ b.val ≤ 0xDF
        ∧ wellFormedLength (b :: t) = sequenceLength t [(0x80, 0xBF)])
    ∨ (first b = 0x13 ∧ b.val = 0xE0
        ∧ wellFormedLength (b :: t) = sequenceLength t [(0xA0, 0xBF), (0x80, 0xBF)])
    ∨ (first b = 0x03 ∧ 0xE1 ≤ b.val ∧ b.val ≤ 0xEF
        ∧ wellFormedLength (b :: t) = sequenceLength t [(0x80, 0xBF), (0x80, 0xBF)])
    ∨ (first b = 0x23 ∧ b.val = 0xED
        ∧ wellFormedLength (b :: t) = sequenceLength t [(0x80, 0x9F), (0x80, 0xBF)])
    ∨ (first b = 0x34 ∧ b.val = 0xF0
        ∧ wellFormedLength (b :: t)
          = sequenceLength t [(0x90, 0xBF), (0x80, 0xBF), (0x80, 0xBF)])
    ∨ (first b = 0x04 ∧ 0xF1 ≤ b.val ∧ b.val ≤ 0xF3
        ∧ wellFormedLength (b :: t)
          = sequenceLength t [(0x80, 0xBF), (0x80, 0xBF), (0x80, 0xBF)])
    ∨ (first b = 0x44 ∧ b.val = 0xF4
        ∧ wellFormedLength (b :: t)
          = sequenceLength t [(0x80, 0x8F), (0x80, 0xBF), (0x80, 0xBF)]) := by
  obtain ⟨v, hv⟩ := b
  simp only at hb
  have hcls : v < 0xC2 ∨ (0xC2 ≤ v ∧ v ≤ 0xDF) ∨ v = 0xE0 ∨ (0xE1 ≤ v ∧ v ≤ 0xEC) ∨ v = 0xED
      ∨ (0xEE ≤ v ∧ v ≤ 0xEF) ∨ v = 0xF0 ∨ (0xF1 ≤ v ∧ v ≤ 0xF3) ∨ v = 0xF4 ∨ 0xF4 < v := by
    omega
  rcases hcls with h | h | h | h | h | h | h | h | h | h
  · refine Or.inl ⟨?_, ?_⟩
    · simp (disch := omega) only [first, if_pos, if_neg]
    · simp (disch := omega) only [wellFormedLength, if_pos, if_neg]
  · refine Or.inr (Or.inl ⟨?_, h.1, h.2, ?_⟩)
    · simp (disch := omega) only [first, if_pos, if_neg]
    · simp (disch := omega) only [wellFormedLength, if_pos, if_neg]
  · refine Or.inr (Or.inr (Or.inl ⟨?_, h, ?_⟩))
    · simp (disch := omega) only [first, if_pos, if_neg]
    · simp (disch := omega) only [wellFormedLength, if_pos, if_neg]
  · refine Or.inr (Or.inr (Or.inr (Or.inl ⟨?_, h.1, by show v ≤ 0xEF; omega, ?_⟩)))
    · simp (disch := omega) only [first, if_pos, if_neg]
    · simp (disch := omega) only [wellFormedLength, if_pos, if_neg]
  · refine Or.inr (Or.inr (Or.inr (Or.inr (Or.inl ⟨?_, h, ?_⟩))))
    · simp (disch := omega) only [first, if_pos, if_neg]
    · simp (disch := omega) only [wellFormedLength, if_pos, if_neg]
  · refine Or.inr (Or.inr (Or.inr (Or.inl ⟨?_, by show 0xE1 ≤ v; omega, h.2, ?_⟩)))
    · simp (disch := omega) only [first, if_pos, if_neg]
    · simp (disch := omega) only [wellFormedLength, if_pos, if_neg]
  · refine Or.inr (Or.inr (Or.inr (Or.inr (Or.inr (Or.inl ⟨?_, h, ?_⟩)))))
    · simp (disch := omega) only [first, if_pos, if_neg]
    · simp (disch := omega) only [wellFormedLength, if_pos, if_neg]
  · refine Or.inr (Or.inr (Or.inr (Or.inr (Or.inr (Or.inr (Or.inl ⟨?_, h.1, h.2, ?_⟩))))))
    · simp (disch := omega) only [first, if_pos, if_neg]
    · simp (disch := omega) only [wellFormedLength, if_pos, if_neg]
  · refine Or.inr (Or.inr (Or.inr (Or.inr (Or.inr (Or.inr (Or.inr ⟨?_, h, ?_⟩))))))
    · simp (disch := omega) only [first, if_pos, if_neg]
    · simp (disch := omega) only [wellFormedLength, if_pos, if_neg]
  · refine Or.inl ⟨?_, ?_⟩
    · simp (disch := omega) only [first, if_pos, if_neg]
    · simp (disch := omega) only [wellFormedLength, if_pos, if_neg]

theorem classified_three (b : Byte) (t : Bytes) (x lo hi : Nat) (hf : first b = x)
    (hx : x % 8 = 3) (hx2 : x < 0xF0) (hacc : acceptRanges (x / 16) = (lo, hi))
    (_hlo : 0x80 ≤ lo) (hhi : hi ≤ 0xBF) (hr1 : 0xE0 ≤ b.val) (hr2 : b.val ≤ 0xEF)
    (hw : wellFormedLength (b :: t) = sequenceLength t [(lo, hi), (0x80, 0xBF)]) :
    Classified b t := by
  obtain ⟨v0, h0⟩ := b
  simp only at hr1 hr2
  have hx3 : ¬ x ≥ 0xF0 := by omega
  unfold Classified
  rw [hw]
  rcases t with _ | ⟨⟨v1, h1⟩, _ | ⟨⟨v2, h2⟩, t⟩⟩
  · left
    simp [DecodeRuneInString, hf, hx, hx3, sequenceLength, startsWithin]
  · left
    simp [DecodeRuneInString, hf, hx, hx3, sequenceLength, startsWithin]
  · have hd : DecodeRuneInString (List.take 4 (⟨v0, h0⟩ :: ⟨v1, h1⟩ :: ⟨v2, h2⟩ :: t))
        = if v1 < lo ∨ hi < v1 then (RuneError, 1)
          else if v2 < 0x80 ∨ 0xBF < v2 then (RuneError, 1)
          else (v0 % 16 * 4096 + v1 % 64 * 64 + v2 % 64, 3) := by
      cases t <;> simp [DecodeRuneInString, hf, hx, hx3, hacc]
    have hs : sequenceLength (⟨v1, h1⟩ :: ⟨v2, h2⟩ :: t) [(lo, hi), (0x80, 0xBF)]
        = if (lo ≤ v1 ∧ v1 ≤ hi) ∧ (0x80 ≤ v2 ∧ v2 ≤ 0xBF) then 3 else 0 := by
      simp [sequenceLength, startsWithin]
    rw [hd, hs]
    by_cases c1 : lo ≤ v1 ∧ v1 ≤ hi
    · by_cases c2 : 0x80 ≤ v2 ∧ v2 ≤ 0xBF
      · right
        have n1 : ¬ (v1 < lo ∨ hi < v1) := by omega
        have n2 : ¬ (v2 < 0x80 ∨ 0xBF < v2) := by omega
        simp only [if_pos (And.intro c1 c2), if_neg n1, if_neg n2]
        simp
        omega
      · left
        have n1 : ¬ (v1 < lo ∨ hi < v1) := by omega
        have n2 : (v2 < 0x80 ∨ 0xBF < v2) := by omega
        have n3 : ¬ ((lo ≤ v1 ∧ v1 ≤ hi) ∧ (0x80 ≤ v2 ∧ v2 ≤ 0xBF)) := fun h => c2 h.2
        simp only [if_neg n1, if_pos n2, if_neg n3]
        exact ⟨trivial, trivial⟩
    · left
      have n1 : (v1 < lo ∨ hi < v1) := by omega
      have n3 : ¬ ((lo ≤ v1 ∧ v1 ≤ hi) ∧ (0x80 ≤ v2 ∧ v2 ≤ 0xBF)) := fun h => c1 h.1
      simp only [if_pos n1, if_neg n3]
      exact ⟨trivial, trivial⟩

theorem classified_invalid (b : Byte) (t : Bytes) (hf : first b = 0xF1)
    (hw : wellFormedLength (b :: t) = 0) : Classified b t := by
  left
  refine ⟨hw, ?_⟩
  simp [DecodeRuneInString, hf]

theorem classified_two (b : Byte) (t : Bytes) (hf : first b = 0x02)
    (hr1 : 0xC2 ≤ b.val) (hr2 : b.val ≤ 0xDF)
    (hw : wellFormedLength (b :: t) = sequenceLength t [(0x80, 0xBF)]) :
    Classified b t := by
  obtain ⟨v0, h0⟩ := b
  simp only at hr1 hr2
  unfold Classified
  rw [hw]
  rcases t with _ | ⟨⟨v1, h1⟩, t⟩
  · left
    simp [DecodeRuneInString, hf, sequenceLength, startsWithin]
  · have hd : DecodeRuneInString (List.take 4 (⟨v0, h0⟩ :: ⟨v1, h1⟩ :: t))
        = if v1 < 0x80 ∨ 0xBF < v1 then (RuneError, 1)
          else (v0 % 32 * 64 + v1 % 64, 2) := by
      simp [DecodeRuneInString, hf, acceptRanges]
    have hs : sequenceLength (⟨v1, h1⟩ :: t) [(0x80, 0xBF)]
        = if 0x80 ≤ v1 ∧ v1 ≤ 0xBF then 2 else 0 := by
      simp [sequenceLength, startsWithin]
    rw [hd, hs]
    by_cases c1 : 0x80 ≤ v1 ∧ v1 ≤ 0xBF
    · right
      have n1 : ¬ (v1 < 0x80 ∨ 0xBF < v1) := by omega
      simp only [if_pos c1, if_neg n1]
      simp
      omega
    · left
      have n1 : (v1 < 0x80 ∨ 0xBF < v1) := by omega
      simp only [if_pos n1, if_neg c1]
      exact ⟨trivial, trivial⟩

theorem classified_four (b : Byte) (t : Bytes) (x lo hi : Nat) (hf : first b = x)
    (hx : x % 8 = 4) (hx2 : x < 0xF0) (hacc : acceptRanges (x / 16) = (lo, hi))
    (hlo : 0x80 ≤ lo) (hhi : hi ≤ 0xBF) (hr1 : 0xF0 ≤ b.val) (hr2 : b.val ≤ 0xF4)
    (hbig : 0xF1 ≤ b.val ∨ 0x90 ≤ lo)
    (hw : wellFormedLength (b :: t)
      = sequenceLength t [(lo, hi), (0x80, 0xBF), (0x80, 0xBF)]) :
    Classified b t := by
  obtain ⟨v0, h0⟩ := b
  simp only at hr1 hr2 hbig
  have hx3 : ¬ x ≥ 0xF0 := by omega
  unfold Classified
  rw [hw]
  rcases t with _ | ⟨⟨v1, h1⟩, _ | ⟨⟨v2, h2⟩, _ | ⟨⟨v3, h3⟩, t⟩⟩⟩
  · left
    simp [DecodeRuneInString, hf, hx, hx3, sequenceLength, startsWithin]
  · left
    simp [DecodeRuneInString, hf, hx, hx3, sequenceLength, startsWithin]
  · left
    simp [DecodeRuneInString, hf, hx, hx3, sequenceLength, startsWithin]
  · have hd : DecodeRuneInString
          (List.take 4 (⟨v0, h0⟩ :: ⟨v1, h1⟩ :: ⟨v2, h2⟩ :: ⟨v3, h3⟩ :: t))
        = if v1 < lo ∨ hi < v1 then (RuneError, 1)
          else if v2 < 0x80 ∨ 0xBF < v2 then (RuneError, 1)
          else if v3 < 0x80 ∨ 0xBF < v3 then (RuneError, 1)
          else (v0 % 8 * 262144 + v1 % 64 * 4096 + v2 % 64 * 64 + v3 % 64, 4) := by
      simp [DecodeRuneInString, hf, hx, hx3, hacc]
    have hs : sequenceLength (⟨v1, h1⟩ :: ⟨v2, h2⟩ :: ⟨v3, h3⟩ :: t)
          [(lo, hi), (0x80, 0xBF), (0x80, 0xBF)]
        = if (lo ≤ v1 ∧ v1 ≤ hi) ∧ (0x80 ≤ v2 ∧ v2 ≤ 0xBF) ∧ (0x80 ≤ v3 ∧ v3 ≤ 0xBF)
          then 4 else 0 := by
      simp [sequenceLength, startsWithin]
    rw [hd, hs]
    by_cases c1 : lo ≤ v1 ∧ v1 ≤ hi
    · by_cases c2 : 0x80 ≤ v2 ∧ v2 ≤ 0xBF
      · by_cases c3 : 0x80 ≤ v3 ∧ v3 ≤ 0xBF
        · right
          have n1 : ¬ (v1 < lo ∨ hi < v1) := by omega
          have n2 : ¬ (v2 < 0x80 ∨ 0xBF < v2) := by omega
          have n3 : ¬ (v3 < 0x80 ∨ 0xBF < v3) := by omega
          simp only [if_pos (And.intro c1 (And.intro c2 c3)), if_neg n1, if_neg n2, if_neg n3]
          simp
          omega
        · left
          have n1 : ¬ (v1 < lo ∨ hi < v1) := by omega
          have n2 : ¬ (v2 < 0x80 ∨ 0xBF < v2) := by omega
          have n3 : (v3 < 0x80 ∨ 0xBF < v3) := by omega
          have n4 : ¬ ((lo ≤ v1 ∧ v1 ≤ hi) ∧ (0x80 ≤ v2 ∧ v2 ≤ 0xBF)
              ∧ (0x80 ≤ v3 ∧ v3 ≤ 0xBF)) := fun h => c3 h.2.2
          simp only [if_neg n1, if_neg n2, if_pos n3, if_neg n4]
          exact ⟨trivial, trivial⟩
      · left
        have n1 : ¬ (v1 < lo ∨ hi < v1) := by omega
        have n2 : (v2 < 0x80 ∨ 0xBF < v2) := by omega
        have n4 : ¬ ((lo ≤ v1 ∧ v1 ≤ hi) ∧ (0x80 ≤ v2 ∧ v2 ≤ 0xBF)
            ∧ (0x80 ≤ v3 ∧ v3 ≤ 0xBF)) := fun h => c2 h.2.1
        simp only [if_neg n1, if_pos n2, if_neg n4]
        exact ⟨trivial, trivial⟩
    · left
      have n1 : (v1 < lo ∨ hi < v1) := by omega
      have n4 : ¬ ((lo ≤ v1 ∧ v1 ≤ hi) ∧ (0x80 ≤ v2 ∧ v2 ≤ 0xBF)
          ∧ (0x80 ≤ v3 ∧ v3 ≤ 0xBF)) := fun h => c1 h.1
      simp only [if_pos n1, if_neg n4]
      exact ⟨trivial, trivial⟩

theorem decodeRune_classified (b : Byte) (t : Bytes) (hb : ¬ b.val < 0x80) :
    Classified b t := by
  rcases lead_cases b t hb with h | h | h | h | h | h | h | h
  · exact classified_invalid b t h.1 h.2
  · exact classified_two b t h.1 h.2.1 h.2.2.1 h.2.2.2
  · exact classified_three b t 0x13 0xA0 0xBF h.1 rfl (by decide) rfl (by decide)
      (by decide) (by omega) (by omega) h.2.2
  · exact classified_three b t 0x03 0x80 0xBF h.1 rfl (by decide) rfl (by decide)
      (by decide) (by omega) (by omega) h.2.2.2
  · exact classified_three b t 0x23 0x80 0x9F h.1 rfl (by decide) rfl (by decide)
      (by decide) (by omega) (by omega) h.2.2
  · exact classified_four b t 0x34 0x90 0xBF h.1 rfl (by decide) rfl (by decide)
      (by decide) (by omega) (by omega) (Or.inr (by decide)) h.2.2
  · exact classified_four b t 0x04 0x80 0xBF h.1 rfl (by decide) rfl (by decide)
      (by decide) (by omega) (by omega) (Or.inl h.2.1) h.2.2.2
  · exact classified_four b t 0x44 0x80 0x8F h.1 rfl (by decide) rfl (by decide)
      (by decide) (by omega) (by omega) (Or.inl (by omega)) h.2.2

theorem appendStringLoop_zero (keep : Bool) (s : Bytes) :
    appendStringLoop 0 keep s = appendStringLoop 0 true s := by
  cases s <;> simp [appendStringLoop]

theorem appendStringLoop_pending (pre rest : Bytes) (keep : Bool) :
    appendStringLoop pre.length keep (pre ++ rest)
      = (if keep then pre else []) ++ appendStringLoop 0 true rest := by
  induction pre with
  | nil => simpa using appendStringLoop_zero keep rest
  | cons p ps ih =>
    cases keep
    · simpa [appendStringLoop] using ih
    · simpa [appendStringLoop] using ih

theorem map_val_eq_iff (r l : Bytes) : r.map Fin.val = l.map Fin.val ↔ r = l :=
  (List.map_injective_iff.2 Fin.val_injective).eq_iff

theorem jsonChar_long (b c : Byte) (cs : Bytes) :
    jsonChar (b :: c :: cs)
      = if (b :: c :: cs).map Fin.val = [0xE2, 0x80, 0xA8] then utf8 "\\u2028"
        else if (b :: c :: cs).map Fin.val = [0xE2, 0x80, 0xA9] then utf8 "\\u2029"
        else b :: c :: cs := by
  have e1 : ((b :: c :: cs).map Fin.val = [0xE2, 0x80, 0xA8])
      = (b :: c :: cs = utf8 "\u2028") := by
    rw [utf8_lineSeparator, ← map_val_eq_iff]; rfl
  have e2 : ((b :: c :: cs).map Fin.val = [0xE2, 0x80, 0xA9])
      = (b :: c :: cs = utf8 "\u2029") := by
    rw [utf8_paragraphSeparator, ← map_val_eq_iff]; rfl
  simp only [e1, e2, jsonChar]

theorem hex_lineSeparator : utf8 "\\u202" ++ [hex (0x2028 % 16)] = utf8 "\\u2028" := by
  decide

theorem hex_paragraphSeparator :
    utf8 "\\u202" ++ [hex (0x2029 % 16)] = utf8 "\\u2029" := by
  decide

theorem appendStringLoop_eq_jsonChars (fuel : Nat) (s : Bytes) (h : s.length ≤ fuel) :
    appendStringLoop 0 true s = jsonChars fuel s := by
  induction fuel generalizing s with
  | zero =>
    have hs : s = [] := List.eq_nil_of_length_eq_zero (Nat.le_zero.mp h)
    subst hs
    rfl
  | succ fuel ih =>
    cases s with
    | nil => rfl
    | cons b rest =>
      have hrest : rest.length ≤ fuel := by simpa using h
      by_cases hb : b.val < 0x80
      · have hw : wellFormedLength (b :: rest) = 1 := by
          simp (disch := omega) only [wellFormedLength, if_pos]
        have hm : appendStringLoop 0 true (b :: rest)
            = (if htmlSafeSet b then [b] else appendEscape b)
              ++ appendStringLoop 0 true rest := by
          simp only [appendStringLoop, if_pos hb]
          split <;> simp
        rw [hm, appendEscape_eq_jsonChar b hb, ih rest hrest]
        simp [jsonChars, hw]
      · rcases decodeRune_classified b rest hb with ⟨hw, hd⟩ | ⟨h2, hlen, hsz, h28, h29⟩
        · have hm : appendStringLoop 0 true (b :: rest)
              = utf8 "\\ufffd" ++ appendStringLoop 0 true rest := by
            simp only [appendStringLoop, if_neg hb, hd]
            simp
          rw [hm, ih rest hrest]
          simp [jsonChars, hw]
        · obtain ⟨m, hm⟩ : ∃ m, wellFormedLength (b :: rest) = m + 2 :=
            ⟨wellFormedLength (b :: rest) - 2, by omega⟩
          rw [hm] at hlen hsz h28 h29
          have hlen2 : m + 1 ≤ rest.length := by simpa using hlen
          have hsplit : rest.take (m + 1) ++ rest.drop (m + 1) = rest :=
            List.take_append_drop _ _
          have hprelen : (rest.take (m + 1)).length = m + 1 := by
            simp [List.length_take, hlen2]
          have hpost : (rest.drop (m + 1)).length ≤ fuel := by
            simp only [List.length_drop]; omega
          have hpend : ∀ keep, appendStringLoop (m + 1) keep rest
              = (if keep then rest.take (m + 1) else [])
                ++ appendStringLoop 0 true (rest.drop (m + 1)) := by
            intro keep
            have := appendStringLoop_pending (rest.take (m + 1)) (rest.drop (m + 1)) keep
            rwa [hprelen, hsplit] at this
          have href : jsonChars (fuel + 1) (b :: rest)
              = jsonChar (b :: rest.take (m + 1)) ++ jsonChars fuel (rest.drop (m + 1)) := by
            simp [jsonChars, hm]
          obtain ⟨c, cs, hcs⟩ : ∃ c cs, rest.take (m + 1) = c :: cs := by
            cases hpre : rest.take (m + 1) with
            | nil => rw [hpre] at hprelen; simp at hprelen
            | cons c cs => exact ⟨c, cs, rfl⟩
          have htake : (b :: rest).take (m + 2) = b :: c :: cs := by
            rw [List.take_succ_cons, hcs]
          rw [htake] at h28 h29
          have hne : ¬ ((DecodeRuneInString ((b :: rest).take 4)).1 = RuneError
              ∧ m + 2 = 1) := by
            rintro ⟨_, h1⟩
            omega
          have hsub : m + 2 - 1 = m + 1 := rfl
          rw [href, hcs, jsonChar_long, ← ih _ hpost]
          simp only [appendStringLoop, if_neg hb, hsz, if_neg hne, hsub]
          by_cases c28 : (DecodeRuneInString ((b :: rest).take 4)).1 = 0x2028
          · have e := h28.mp c28
            rw [if_pos (Or.inl c28), if_pos e, hpend false, c28, hex_lineSeparator]
            simp
          · by_cases c29 : (DecodeRuneInString ((b :: rest).take 4)).1 = 0x2029
            · have e := h29.mp c29
              have e28 : ¬ (b :: c :: cs).map Fin.val = [0xE2, 0x80, 0xA8] :=
                fun h => c28 (h28.mpr h)
              rw [if_pos (Or.inr c29), if_neg e28, if_pos e, hpend false, c29,
                hex_paragraphSeparator]
              simp
            · have e28 : ¬ (b :: c :: cs).map Fin.val = [0xE2, 0x80, 0xA8] :=
                fun h => c28 (h28.mpr h)
              have e29 : ¬ (b :: c :: cs).map Fin.val = [0xE2, 0x80, 0xA9] :=
                fun h => c29 (h29.mpr h)
              have cn : ¬ ((DecodeRuneInString ((b :: rest).take 4)).1 = 0x2028
                  ∨ (DecodeRuneInString ((b :: rest).take 4)).1 = 0x2029) := by
                rintro (h | h)
                · exact c28 h
                · exact c29 h
              rw [if_neg cn, if_neg e28, if_neg e29, hpend true, hcs]
              simp

/-- The JSON string literal `appendString` writes is the documented one. -/
theorem appendString_eq_jsonStringLiteral (s : Bytes) :
    appendString s = jsonStringLiteral s := by
  simp only [appendString, jsonStringLiteral,
    appendStringLoop_eq_jsonChars s.length s (Nat.le_refl _)]



theorem Calculate_of_decoded (w : World) (client : Client) (addrFrom addrTo : Bytes)
    (size : Size) (fields : CalculatorFields)
    (h : Calculate.decoded w client addrFrom addrTo size fields) :
    ∃ req, Calculate w client addrFrom addrTo size =
      if fields.decodeInto.Errors.len ≠ 0 then
        ⟨.nil, fields.decodeInto.Errors, none, [.Do req]⟩
      else if fields.decodeInto.Requests.len ≠ 0 then
        ⟨.nil, appendRequestErrors (.mk []) fields.decodeInto.Requests.toList, none, [.Do req]⟩
      else
        ⟨fields.decodeInto.TariffCodes, .nil, none, [.Do req]⟩ := by
  obtain ⟨buf, resp, henc, hnew, hdo, hdec⟩ := h
  refine ⟨newCalculateRequest client buf, ?_⟩
  simp only [Calculate, henc, hnew, hdo, hdec]

theorem World.answering_decoded (tok : TokenFields) (cal : CalculatorFields) (client : Client)
    (addrFrom addrTo : Bytes) (size : Size) :
    Calculate.decoded (World.answering tok cal) client addrFrom addrTo size cal :=
  ⟨_, "", rfl, rfl, rfl, rfl⟩

theorem appendRequestErrors_cons (e : Slice Error) (r : RequestErrors)
    (rs : List RequestErrors) :
    appendRequestErrors e (r :: rs) = appendRequestErrors (e.append r.Errors) rs := rfl

theorem appendRequestErrors_mk (acc : List Error) (requests : List RequestErrors) :
    appendRequestErrors (.mk acc) requests
      = .mk (acc ++ (requests.map (fun r => r.Errors.toList)).flatten) := by
  induction requests generalizing acc with
  | nil => simp [appendRequestErrors]
  | cons r rs ih =>
    rw [appendRequestErrors_cons]
    show appendRequestErrors (.mk (acc ++ r.Errors.toList)) rs = _
    rw [ih]
    simp

theorem GetToken_of_decoded (w : World) (account securePassword : String) (testMode : Bool)
    (customAuthEndpointURL : String) (fields : TokenFields)
    (h : GetToken.decoded w account securePassword testMode customAuthEndpointURL fields) :
    GetToken w account securePassword testMode customAuthEndpointURL =
      if fields.decodeInto.Error ≠ "" then
        ⟨"", 0, some (.wrap ("GetAccessToken: API error '" ++ fields.decodeInto.Error ++ "' ("
          ++ fields.decodeInto.ErrorDescription ++ ")") (.new fields.decodeInto.Error)),
          [.PostForm (authEndpointURL testMode customAuthEndpointURL)
            (authParams account securePassword)]⟩
      else
        ⟨fields.decodeInto.AccessToken, fields.decodeInto.ExpiresIn, none,
          [.PostForm (authEndpointURL testMode customAuthEndpointURL)
            (authParams account securePassword)]⟩ := by
  obtain ⟨resp, hpost, hdec⟩ := h
  simp only [GetToken, hpost, hdec]

theorem GetToken_calls (w : World) (account securePassword : String) (testMode : Bool)
    (customAuthEndpointURL : String) :
    (GetToken w account securePassword testMode customAuthEndpointURL).calls
      = [.PostForm (authEndpointURL testMode customAuthEndpointURL)
          (authParams account securePassword)] := by
  simp only [GetToken]
  split
  · rfl
  · split
    · rfl
    · split <;> rfl

theorem World.answering_token_decoded (tok : TokenFields) (cal : CalculatorFields)
    (account securePassword : String) (testMode : Bool) (customAuthEndpointURL : String) :
    GetToken.decoded (World.answering tok cal) account securePassword testMode
      customAuthEndpointURL tok :=
  ⟨"", rfl, rfl⟩

theorem beginsWith_append (pre rest : String) : beginsWith (pre ++ rest) pre :=
  ⟨rest.toList, by simp⟩

theorem not_beginsWith_GetToken (rest : String) :
    ¬ beginsWith ("GetAccessToken: " ++ rest) "GetToken: " := by
  rintro ⟨t, ht⟩
  have h := congrArg (fun l => l.getD 3 'x') ht
  simp at h

/-- Every error of `Calculate` is a cause wrapped under the text `Calculate: `. -/
theorem Calculate_error_wrapped (w : World) (client : Client) (addrFrom addrTo : Bytes)
    (size : Size) (e : GoError) (h : (Calculate w client addrFrom addrTo size).err = some e) :
    ∃ cause, e = .wrap ("Calculate: " ++ cause.Error) cause
      ∧ beginsWith e.Error "Calculate: " := by
  have key : ∀ cause, Errorf "Calculate: " cause = e →
      ∃ cause, e = .wrap ("Calculate: " ++ cause.Error) cause
        ∧ beginsWith e.Error "Calculate: " := by
    rintro cause rfl
    exact ⟨cause, rfl, beginsWith_append _ _⟩
  simp only [Calculate, Encode] at h
  split at h
  · exact key _ (Option.some.inj h)
  · split at h
    · exact key _ (Option.some.inj h)
    · split at h
      · exact key _ (Option.some.inj h)
      · split at h
        · exact absurd h (by simp)
        · split at h
          · exact absurd h (by simp)
          · exact absurd h (by simp)

/-- Every error of `GetToken` has a message that begins with `GetAccessToken: `, and so
does not begin with `GetToken: `. -/
theorem GetToken_error_begins (w : World) (account securePassword : String)
    (testMode : Bool) (customAuthEndpointURL : String) (e : GoError)
    (h : (GetToken w account securePassword testMode customAuthEndpointURL).err = some e) :
    beginsWith e.Error "GetAccessToken: " ∧ ¬ beginsWith e.Error "GetToken: " := by
  have key : ∀ rest cause, GoError.wrap ("GetAccessToken: " ++ rest) cause = e →
      beginsWith e.Error "GetAccessToken: " ∧ ¬ beginsWith e.Error "GetToken: " := by
    rintro rest cause rfl
    exact ⟨beginsWith_append _ _, not_beginsWith_GetToken _⟩
  simp only [GetToken] at h
  split at h
  · exact key _ _ (Option.some.inj h)
  · split at h
    · exact key _ _ (Option.some.inj h)
    · split at h
      · rename_i fields _ _
        exact key ("API error '" ++ fields.decodeInto.Error ++ "' ("
          ++ fields.decodeInto.ErrorDescription ++ ")") _ (Option.some.inj h)
      · exact absurd h (by simp)

/-! ## Claims -/

/-- C4: `NewClient` keeps the token unchanged; its endpoint URL is the custom URL when
that is non-empty, whatever the test flag, and otherwise the test URL when the flag is
set and the production URL when it is not. -/
theorem NewClient_token_and_endpoint (token : String) (testMode : Bool)
    (customEndpointURL : String) :
    (NewClient token testMode customEndpointURL).Token = token
    ∧ (NewClient token testMode customEndpointURL).EnpointURL =
        (if customEndpointURL ≠ "" then customEndpointURL
         else if testMode = true then "https://api.edu.cdek.ru/v2/calculator/tarifflist"
         else "https://api.cdek.ru/v2/calculator/tarifflist") := by
  unfold NewClient
  by_cases hc : customEndpointURL = "" <;> cases testMode <;>
    simp [hc, EndpointURLTesting, EndpointURLProduction]

/-- C1: when the decoded calculator response has a non-empty `errors` list, `Calculate`
returns nil quotes, exactly that list and a nil error, whatever `tariff_codes` and
`requests` hold. -/
theorem Calculate_errors_take_precedence (w : World) (client : Client)
    (addrFrom addrTo : Bytes) (size : Size) (fields : CalculatorFields)
    (h : Calculate.decoded w client addrFrom addrTo size fields)
    (herrors : fields.decodeInto.Errors.len ≠ 0) :
    (Calculate w client addrFrom addrTo size).prices = .nil
    ∧ (Calculate w client addrFrom addrTo size).errors = fields.decodeInto.Errors
    ∧ (Calculate w client addrFrom addrTo size).errors.toList = (fields.errors.getD [])
    ∧ (Calculate w client addrFrom addrTo size).err = none := by
  obtain ⟨req, hreq⟩ := Calculate_of_decoded w client addrFrom addrTo size fields h
  rw [hreq, if_pos herrors]
  refine ⟨rfl, rfl, ?_, rfl⟩
  cases hf : fields.errors <;> simp [CalculatorFields.decodeInto, sliceOf, Slice.toList, hf]
/-- C2: when the decoded calculator response has an empty `errors` list and a non-empty
`requests` list, `Calculate` returns nil quotes, a nil error and a non-nil error list
that is the concatenation of the groups' `errors` lists, groups in order; the
`tariff_codes` of the response are not returned. -/
theorem Calculate_flattens_request_errors (w : World) (client : Client)
    (addrFrom addrTo : Bytes) (size : Size) (fields : CalculatorFields)
    (h : Calculate.decoded w client addrFrom addrTo size fields)
    (herrors : fields.decodeInto.Errors.len = 0)
    (hrequests : fields.decodeInto.Requests.len ≠ 0) :
    (Calculate w client addrFrom addrTo size).prices = .nil
    ∧ (Calculate w client addrFrom addrTo size).errors
        = .mk ((fields.decodeInto.Requests.toList.map (fun r => r.Errors.toList)).flatten)
    ∧ (Calculate w client addrFrom addrTo size).errors ≠ .nil
    ∧ (Calculate w client addrFrom addrTo size).err = none := by
  obtain ⟨req, hreq⟩ := Calculate_of_decoded w client addrFrom addrTo size fields h
  have hno : ¬ fields.decodeInto.Errors.len ≠ 0 := by simp [herrors]
  rw [hreq, if_neg hno, if_pos hrequests]
  simp [appendRequestErrors_mk]

/-- C3: when the decoded calculator response has empty `errors` and `requests` lists,
`Calculate` returns the decoded `tariff_codes` slice itself, a nil error list and a nil
error; with `tariff_codes` absent the quotes are nil, with `tariff_codes` an empty array
they are empty, and the error stays nil. -/
theorem Calculate_returns_tariff_codes (w : World) (client : Client)
    (addrFrom addrTo : Bytes) (size : Size) (fields : CalculatorFields)
    (h : Calculate.decoded w client addrFrom addrTo size fields)
    (herrors : fields.decodeInto.Errors.len = 0)
    (hrequests : fields.decodeInto.Requests.len = 0) :
    (Calculate w client addrFrom addrTo size).prices = fields.decodeInto.TariffCodes
    ∧ (Calculate w client addrFrom addrTo size).prices.toList = fields.tariff_codes.getD []
    ∧ (Calculate w client addrFrom addrTo size).errors = .nil
    ∧ (Calculate w client addrFrom addrTo size).err = none
    ∧ (fields.tariff_codes = none → (Calculate w client addrFrom addrTo size).prices = .nil)
    ∧ (fields.tariff_codes = some [] →
        (Calculate w client addrFrom addrTo size).prices = .mk []) := by
  obtain ⟨req, hreq⟩ := Calculate_of_decoded w client addrFrom addrTo size fields h
  have hno : ¬ fields.decodeInto.Errors.len ≠ 0 := by simp [herrors]
  have hno2 : ¬ fields.decodeInto.Requests.len ≠ 0 := by simp [hrequests]
  rw [hreq, if_neg hno, if_neg hno2]
  refine ⟨rfl, ?_, rfl, rfl, ?_, ?_⟩
  · cases hf : fields.tariff_codes <;>
      simp [CalculatorFields.decodeInto, sliceOf, Slice.toList, hf]
  · intro hf
    simp [CalculatorFields.decodeInto, sliceOf, hf]
  · intro hf
    simp [CalculatorFields.decodeInto, sliceOf, hf]

/-- C5: when the decoded token response has a non-empty `error`, `GetToken` returns the
empty token, expiry 0 and an error whose message contains both the `error` and the
`error_description` of the response, whatever its `access_token`. -/
theorem GetToken_api_error (w : World) (account securePassword : String) (testMode : Bool)
    (customAuthEndpointURL : String) (fields : TokenFields)
    (h : GetToken.decoded w account securePassword testMode customAuthEndpointURL fields)
    (herror : fields.decodeInto.Error ≠ "") :
    (GetToken w account securePassword testMode customAuthEndpointURL).token = ""
    ∧ (GetToken w account securePassword testMode customAuthEndpointURL).expiresIn = 0
    ∧ ∃ e, (GetToken w account securePassword testMode customAuthEndpointURL).err = some e
        ∧ occursIn fields.decodeInto.Error e.Error
        ∧ occursIn fields.decodeInto.ErrorDescription e.Error := by
  rw [GetToken_of_decoded w account securePassword testMode customAuthEndpointURL fields h,
    if_pos herror]
  refine ⟨rfl, rfl, _, rfl, ?_, ?_⟩
  · refine ⟨"GetAccessToken: API error '".toList,
      ("' (" ++ fields.decodeInto.ErrorDescription ++ ")").toList, ?_⟩
    simp [GoError.Error, String.append_assoc]
  · refine ⟨("GetAccessToken: API error '" ++ fields.decodeInto.Error ++ "' (").toList,
      ")".toList, ?_⟩
    simp [GoError.Error, String.append_assoc]

/-- C7: `GetToken` makes one call, a form POST; its URL is the custom URL when that is
non-empty, else the test URL when the flag is set and the production URL when it is not;
its form has the three fields `grant_type=client_credentials`, `client_id=<account>`,
`client_secret=<secret>` and no other. -/
theorem GetToken_request (w : World) (account securePassword : String) (testMode : Bool)
    (customAuthEndpointURL : String) :
    ∃ params, (GetToken w account securePassword testMode customAuthEndpointURL).calls
        = [.PostForm
            (if customAuthEndpointURL ≠ "" then customAuthEndpointURL
             else if testMode = true then "https://api.edu.cdek.ru/v2/oauth/token"
             else "https://api.cdek.ru/v2/oauth/token") params]
      ∧ params.entries.length = 3
      ∧ ∀ key, params.lookup key =
          if key = "client_secret" then some [securePassword]
          else if key = "client_id" then some [account]
          else if key = "grant_type" then some ["client_credentials"]
          else none := by
  refine ⟨authParams account securePassword, ?_, ?_, ?_⟩
  · have hurl : authEndpointURL testMode customAuthEndpointURL
        = (if customAuthEndpointURL ≠ "" then customAuthEndpointURL
           else if testMode = true then "https://api.edu.cdek.ru/v2/oauth/token"
           else "https://api.cdek.ru/v2/oauth/token") := by
      unfold authEndpointURL
      by_cases hc : customAuthEndpointURL = "" <;> cases testMode <;>
        simp [hc, AuthEndpointURLTesting, AuthEndpointURLProduction]
    rw [← hurl]
    exact GetToken_calls w account securePassword testMode customAuthEndpointURL
  · simp [authParams, Values.Set, Values.empty, List.filter]
  · intro key
    simp only [authParams, Values.Set, Values.empty, Values.lookup]
    by_cases h1 : key = "client_secret"
    · subst h1; simp [List.filter]
    by_cases h2 : key = "client_id"
    · subst h2; simp [List.filter]
    by_cases h3 : key = "grant_type"
    · subst h3; simp [List.filter]
    simp [List.filter, List.find?, h1, h2, h3, Ne.symm h1, Ne.symm h2, Ne.symm h3]

/-- C9: when the decoded token response has an empty or absent `error`, `GetToken`
returns the decoded `access_token`, the decoded `expires_in` and a nil error; with
`expires_in` absent the expiry returned is 0, not 3600. -/
theorem GetToken_success (w : World) (account securePassword : String) (testMode : Bool)
    (customAuthEndpointURL : String) (fields : TokenFields)
    (h : GetToken.decoded w account securePassword testMode customAuthEndpointURL fields)
    (herror : fields.decodeInto.Error = "") :
    (GetToken w account securePassword testMode customAuthEndpointURL).token
        = fields.access_token.getD ""
    ∧ (GetToken w account securePassword testMode customAuthEndpointURL).err = none
    ∧ (∀ n, fields.expires_in = some n →
        (GetToken w account securePassword testMode customAuthEndpointURL).expiresIn = n)
    ∧ (fields.expires_in = none →
        (GetToken w account securePassword testMode customAuthEndpointURL).expiresIn = 0
        ∧ (GetToken w account securePassword testMode customAuthEndpointURL).expiresIn
            ≠ 3600) := by
  have hno : ¬ fields.decodeInto.Error ≠ "" := by simp [herror]
  rw [GetToken_of_decoded w account securePassword testMode customAuthEndpointURL fields h,
    if_neg hno]
  refine ⟨rfl, rfl, ?_, ?_⟩
  · intro n hn
    simp [TokenFields.decodeInto, hn]
  · intro hn
    simp [TokenFields.decodeInto, hn]

/-- C8: inside `Calculate`, a failure to build the request, of the HTTP exchange or of
the decoding gives nil quotes, a nil error list and the failure wrapped as the error;
serialization has no failure; a decoded response gives a nil error; and whenever the
error is non-nil the quotes and the error list are nil. -/
theorem Calculate_hard_error_channel (w : World) (client : Client)
    (addrFrom addrTo : Bytes) (size : Size) :
    (∃ buf, Encode (newReqCalculator addrFrom addrTo size) = .ok buf
      ∧ (∀ e, w.NewRequest "POST" client.EnpointURL = some e →
          Calculate w client addrFrom addrTo size
            = ⟨.nil, .nil, some (Errorf "Calculate: " e), []⟩)
      ∧ (∀ e, w.NewRequest "POST" client.EnpointURL = none →
          w.Do (newCalculateRequest client buf) = .error e →
          Calculate w client addrFrom addrTo size
            = ⟨.nil, .nil, some (Errorf "Calculate: " e), [.Do (newCalculateRequest client buf)]⟩)
      ∧ (∀ resp e, w.NewRequest "POST" client.EnpointURL = none →
          w.Do (newCalculateRequest client buf) = .ok resp →
          w.DecodeCalculator resp = .error e →
          Calculate w client addrFrom addrTo size
            = ⟨.nil, .nil, some (Errorf "Calculate: " e), [.Do (newCalculateRequest client buf)]⟩))
    ∧ (∀ fields, Calculate.decoded w client addrFrom addrTo size fields →
        (Calculate w client addrFrom addrTo size).err = none)
    ∧ ((Calculate w client addrFrom addrTo size).err ≠ none →
        (Calculate w client addrFrom addrTo size).prices = .nil
        ∧ (Calculate w client addrFrom addrTo size).errors = .nil) := by
  refine ⟨⟨_, rfl, ?_, ?_, ?_⟩, ?_, ?_⟩
  · intro e hnew
    simp only [Calculate, Encode, hnew]
  · intro e hnew hdo
    simp only [Calculate, Encode, hnew, hdo]
  · intro resp e hnew hdo hdec
    simp only [Calculate, Encode, hnew, hdo, hdec]
  · intro fields h
    obtain ⟨req, hreq⟩ := Calculate_of_decoded w client addrFrom addrTo size fields h
    rw [hreq]
    split
    · rfl
    · split <;> rfl
  · simp only [Calculate, Encode]
    split
    · intro _; exact ⟨rfl, rfl⟩
    · split
      · intro _; exact ⟨rfl, rfl⟩
      · split
        · intro _; exact ⟨rfl, rfl⟩
        · split
          · intro h; exact absurd rfl h
          · split
            · intro h; exact absurd rfl h
            · intro h; exact absurd rfl h

/-- C6, amended: with all four dimensions non-zero, the body `Calculate` serializes is
the JSON object with the keys `from_location`, `to_location`, `packages` in that order,
the two addresses as JSON string literals and the one size as the only package, followed
by a newline character; when the request can be built, `Calculate` hands the transport
one POST request to the client's URL with that body, and none otherwise. (The weight is
written whatever its value, so its hypothesis is not used.) -/
theorem Calculate_request_body (w : World) (client : Client) (addrFrom addrTo : Bytes)
    (size : Size) (_hweight : size.Weight ≠ 0) (hlength : size.Length ≠ 0)
    (hwidth : size.Width ≠ 0) (hheight : size.Height ≠ 0) :
    Encode (newReqCalculator addrFrom addrTo size)
      = .ok (specRequestText addrFrom addrTo size ++ utf8 "\n")
    ∧ (w.NewRequest "POST" client.EnpointURL = none →
        ∃ req, (Calculate w client addrFrom addrTo size).calls = [.Do req]
          ∧ req.Method = "POST" ∧ req.URL = client.EnpointURL
          ∧ req.Body = specRequestText addrFrom addrTo size ++ utf8 "\n")
    ∧ (∀ e, w.NewRequest "POST" client.EnpointURL = some e →
        (Calculate w client addrFrom addrTo size).calls = []) := by
  have henc : Encode (newReqCalculator addrFrom addrTo size)
      = .ok (specRequestText addrFrom addrTo size ++ utf8 "\n") := by
    simp only [Encode, encodeReqCalculator, encodeLocation, encodePackages, encodeElements,
      encodeSize, encodeOmitEmpty, encodeInt, newReqCalculator, specRequestText,
      if_neg hlength, if_neg hwidth, if_neg hheight, appendString_eq_jsonStringLiteral,
      List.append_assoc]
    rfl
  refine ⟨henc, ?_, ?_⟩
  · intro hnew
    refine ⟨newCalculateRequest client (specRequestText addrFrom addrTo size ++ utf8 "\n"),
      ?_, rfl, rfl, rfl⟩
    simp only [Calculate, henc, hnew]
    split
    · rfl
    · split
      · rfl
      · split
        · rfl
        · split <;> rfl
  · intro e hnew
    simp only [Calculate, henc, hnew]

/-- C6, as the spec states it, fails: for origin `A`, destination `B` and the size
100/10/10/10 the body `Calculate` hands to the transport is the JSON text of the spec
followed by a newline character, hence not that text. -/
theorem Calculate_request_body_not_bare_text :
    ∃ req, (Calculate (World.answering noTokenFields noCalculatorFields) exampleClient
        (utf8 "A") (utf8 "B") exampleSize).calls = [.Do req]
      ∧ req.Body = utf8 "\x7b\"from_location\":\x7b\"address\":\"A\"\x7d,\"to_location\":\x7b\"address\":\"B\"\x7d,\"packages\":[\x7b\"weight\":100,\"length\":10,\"width\":10,\"height\":10\x7d]\x7d" ++ utf8 "\n"
      ∧ req.Body ≠ utf8 "\x7b\"from_location\":\x7b\"address\":\"A\"\x7d,\"to_location\":\x7b\"address\":\"B\"\x7d,\"packages\":[\x7b\"weight\":100,\"length\":10,\"width\":10,\"height\":10\x7d]\x7d" := by
  refine ⟨_, rfl, ?_, ?_⟩ <;> decide

/-- C10: the error `GetToken` returns when the connection is refused has the message
`GetAccessToken: connection refused`; it does not begin with `GetToken: `. -/
theorem GetToken_error_names_GetAccessToken :
    (GetToken World.refusing "account" "secret" true "").err
      = some (.wrap "GetAccessToken: connection refused" (.new "connection refused"))
    ∧ ¬ beginsWith "GetAccessToken: connection refused" "GetToken: " := by
  refine ⟨rfl, ?_⟩
  decide

/-! ## Witnesses -/

theorem Calculate_errors_take_precedence_witness :
    Calculate.decoded (World.answering noTokenFields responseWithErrors) exampleClient
      (utf8 "A") (utf8 "B") exampleSize responseWithErrors
    ∧ responseWithErrors.decodeInto.Errors.len ≠ 0
    ∧ (Calculate (World.answering noTokenFields responseWithErrors) exampleClient
        (utf8 "A") (utf8 "B") exampleSize).prices = .nil
    ∧ (Calculate (World.answering noTokenFields responseWithErrors) exampleClient
        (utf8 "A") (utf8 "B") exampleSize).errors
        = .mk [⟨"v2_bad_address", "bad address"⟩, ⟨"v2_bad_weight", "bad weight"⟩]
    ∧ (Calculate (World.answering noTokenFields responseWithErrors) exampleClient
        (utf8 "A") (utf8 "B") exampleSize).errors.toList
        = [⟨"v2_bad_address", "bad address"⟩, ⟨"v2_bad_weight", "bad weight"⟩]
    ∧ (Calculate (World.answering noTokenFields responseWithErrors) exampleClient
        (utf8 "A") (utf8 "B") exampleSize).err = none :=
  ⟨World.answering_decoded _ _ _ _ _ _, by decide,
    Calculate_errors_take_precedence _ _ _ _ _ _ (World.answering_decoded _ _ _ _ _ _)
      (by decide)⟩

theorem Calculate_flattens_request_errors_witness :
    Calculate.decoded (World.answering noTokenFields responseWithRequests) exampleClient
      (utf8 "A") (utf8 "B") exampleSize responseWithRequests
    ∧ responseWithRequests.decodeInto.Errors.len = 0
    ∧ responseWithRequests.decodeInto.Requests.len ≠ 0
    ∧ (Calculate (World.answering noTokenFields responseWithRequests) exampleClient
        (utf8 "A") (utf8 "B") exampleSize).prices = .nil
    ∧ (Calculate (World.answering noTokenFields responseWithRequests) exampleClient
        (utf8 "A") (utf8 "B") exampleSize).errors
        = .mk [⟨"v2_token_expired", "expired"⟩, ⟨"v2_a", "a"⟩, ⟨"v2_b", "b"⟩]
    ∧ (Calculate (World.answering noTokenFields responseWithRequests) exampleClient
        (utf8 "A") (utf8 "B") exampleSize).errors ≠ .nil
    ∧ (Calculate (World.answering noTokenFields responseWithRequests) exampleClient
        (utf8 "A") (utf8 "B") exampleSize).err = none :=
  ⟨World.answering_decoded _ _ _ _ _ _, by decide, by decide,
    Calculate_flattens_request_errors _ _ _ _ _ _ (World.answering_decoded _ _ _ _ _ _)
      (by decide) (by decide)⟩

theorem Calculate_returns_tariff_codes_witness :
    Calculate.decoded (World.answering noTokenFields responseWithTariffs) exampleClient
      (utf8 "A") (utf8 "B") exampleSize responseWithTariffs
    ∧ responseWithTariffs.decodeInto.Errors.len = 0
    ∧ responseWithTariffs.decodeInto.Requests.len = 0
    ∧ (Calculate (World.answering noTokenFields responseWithTariffs) exampleClient
        (utf8 "A") (utf8 "B") exampleSize).prices
        = .mk [exampleQuote, { exampleQuote with TariffCode := 137 }]
    ∧ (Calculate (World.answering noTokenFields responseWithTariffs) exampleClient
        (utf8 "A") (utf8 "B") exampleSize).errors = .nil
    ∧ (Calculate (World.answering noTokenFields responseWithTariffs) exampleClient
        (utf8 "A") (utf8 "B") exampleSize).err = none :=
  have h := Calculate_returns_tariff_codes
    (World.answering noTokenFields responseWithTariffs) exampleClient (utf8 "A") (utf8 "B") exampleSize
    responseWithTariffs (World.answering_decoded _ _ _ _ _ _) (by decide) (by decide)
  ⟨World.answering_decoded _ _ _ _ _ _, by decide, by decide, h.1, h.2.2.1, h.2.2.2.1⟩

theorem GetToken_api_error_witness :
    GetToken.decoded (World.answering tokenResponseWithError noCalculatorFields)
      "account" "secret" true "" tokenResponseWithError
    ∧ tokenResponseWithError.decodeInto.Error ≠ ""
    ∧ (GetToken (World.answering tokenResponseWithError noCalculatorFields)
        "account" "secret" true "").token = ""
    ∧ (GetToken (World.answering tokenResponseWithError noCalculatorFields)
        "account" "secret" true "").expiresIn = 0
    ∧ ∃ e, (GetToken (World.answering tokenResponseWithError noCalculatorFields)
        "account" "secret" true "").err = some e
        ∧ occursIn "invalid_client" e.Error
        ∧ occursIn "bad secret" e.Error :=
  ⟨World.answering_token_decoded _ _ _ _ _ _, by decide,
    GetToken_api_error _ _ _ _ _ _ (World.answering_token_decoded _ _ _ _ _ _) (by decide)⟩

theorem GetToken_success_witness :
    GetToken.decoded (World.answering tokenResponseWithoutExpiry noCalculatorFields)
      "account" "secret" false "" tokenResponseWithoutExpiry
    ∧ tokenResponseWithoutExpiry.decodeInto.Error = ""
    ∧ (GetToken (World.answering tokenResponseWithoutExpiry noCalculatorFields)
        "account" "secret" false "").token = "jwt"
    ∧ (GetToken (World.answering tokenResponseWithoutExpiry noCalculatorFields)
        "account" "secret" false "").err = none
    ∧ (GetToken (World.answering tokenResponseWithoutExpiry noCalculatorFields)
        "account" "secret" false "").expiresIn = 0 :=
  have h := GetToken_success (World.answering tokenResponseWithoutExpiry noCalculatorFields)
    "account" "secret" false "" tokenResponseWithoutExpiry
    (World.answering_token_decoded _ _ _ _ _ _) rfl
  ⟨World.answering_token_decoded _ _ _ _ _ _, rfl, h.1, h.2.1, (h.2.2.2 rfl).1⟩

theorem Calculate_hard_error_channel_witness :
    (Calculate World.refusing exampleClient (utf8 "A") (utf8 "B") exampleSize).err ≠ none
    ∧ (Calculate World.refusing exampleClient (utf8 "A") (utf8 "B") exampleSize).prices = .nil
    ∧ (Calculate World.refusing exampleClient (utf8 "A") (utf8 "B") exampleSize).errors = .nil
    ∧ (Calculate (World.answering noTokenFields responseWithErrors) exampleClient
        (utf8 "A") (utf8 "B") exampleSize).err = none :=
  have hfail : (Calculate World.refusing exampleClient (utf8 "A") (utf8 "B") exampleSize).err ≠ none := by
    decide
  have h := (Calculate_hard_error_channel World.refusing exampleClient (utf8 "A") (utf8 "B")
    exampleSize).2.2 hfail
  ⟨hfail, h.1, h.2,
    (Calculate_hard_error_channel (World.answering noTokenFields responseWithErrors)
      exampleClient (utf8 "A") (utf8 "B") exampleSize).2.1 responseWithErrors
      (World.answering_decoded _ _ _ _ _ _)⟩

theorem Calculate_request_body_witness :
    exampleSize.Weight ≠ 0 ∧ exampleSize.Length ≠ 0 ∧ exampleSize.Width ≠ 0
    ∧ exampleSize.Height ≠ 0
    ∧ Encode (newReqCalculator (utf8 "x\x08y\x0cz") (utf8 "a" ++ [0xff] ++ utf8 "b")
        exampleSize)
      = .ok (utf8 "\x7b\"from_location\":\x7b\"address\":\"x\\by\\fz\"\x7d,\"to_location\":\x7b\"address\":\"a\\ufffdb\"\x7d,\"packages\":[\x7b\"weight\":100,\"length\":10,\"width\":10,\"height\":10\x7d]\x7d\n")
    ∧ ∃ req, (Calculate (World.answering noTokenFields noCalculatorFields) exampleClient
        (utf8 "x\x08y\x0cz") (utf8 "a" ++ [0xff] ++ utf8 "b") exampleSize).calls = [.Do req]
      ∧ req.Method = "POST"
      ∧ req.URL = "https://api.edu.cdek.ru/v2/calculator/tarifflist"
      ∧ req.Body = utf8 "\x7b\"from_location\":\x7b\"address\":\"x\\by\\fz\"\x7d,\"to_location\":\x7b\"address\":\"a\\ufffdb\"\x7d,\"packages\":[\x7b\"weight\":100,\"length\":10,\"width\":10,\"height\":10\x7d]\x7d\n" :=
  have h := Calculate_request_body (World.answering noTokenFields noCalculatorFields)
    exampleClient (utf8 "x\x08y\x0cz") (utf8 "a" ++ [0xff] ++ utf8 "b") exampleSize
    (by decide) (by decide) (by decide) (by decide)
  have hb : specRequestText (utf8 "x\x08y\x0cz") (utf8 "a" ++ [0xff] ++ utf8 "b") exampleSize
      ++ utf8 "\n" = utf8 "\x7b\"from_location\":\x7b\"address\":\"x\\by\\fz\"\x7d,\"to_location\":\x7b\"address\":\"a\\ufffdb\"\x7d,\"packages\":[\x7b\"weight\":100,\"length\":10,\"width\":10,\"height\":10\x7d]\x7d\n" := by
    decide
  ⟨by decide, by decide, by decide, by decide, hb ▸ h.1,
    (h.2.1 rfl).elim fun req hreq =>
      ⟨req, hreq.1, hreq.2.1, hreq.2.2.1.trans rfl, hb ▸ hreq.2.2.2⟩⟩

end Cdekcalc
